import Mathlib

/-!
Shallow embedding of `aries_cloudagent/connections/models/conn_record.py`:
the `ConnRecord` entity, its `Role` and `State` dual-label enumerations,
retrieval operations, attached-document storage with type-discriminated
deserialization, and the per-connection metadata store.

External collaborators (the storage engine, the generic
`BaseRecord.retrieve_by_tag_filter`, the wire-message classes and the
protocol type-string constants) are not part of the source file; they are
modelled from the specification and marked as such in their doc comments.
-/

set_option autoImplicit false

/-- Python exception / storage-error outcomes surfaced by the operations. -/
inductive PyErr where
  | storageNotFound
  | storageDuplicate
  | attributeError
  | assertionError
  | typeError
deriving DecidableEq

/-- `ConnRecord.Role`: RFC 160 (inviter, invitee) = RFC 23 (responder, requester). -/
inductive Role where
  | REQUESTER
  | RESPONDER
deriving DecidableEq

/-- The label pair carried by each `Role` variant (`Role.value` in the source). -/
def Role.value : Role → String × String
  | .REQUESTER => ("invitee", "requester")
  | .RESPONDER => ("inviter", "responder")

/-- RFC 160 (connection protocol) nomenclature: `value[0]`. -/
def Role.rfc160 (r : Role) : String := r.value.1

/-- RFC 23 (DID exchange protocol) nomenclature: `value[1]`. -/
def Role.rfc23 (r : Role) : String := r.value.2

/-- Enumeration order of `ConnRecord.Role`, as iterated by `Role.get`. -/
def Role.all : List Role := [.REQUESTER, .RESPONDER]

/-- The string arm of `Role.get`: first variant whose label pair contains the label. -/
def Role.getStr (label : String) : Option Role :=
  Role.all.find? (fun r => label == r.rfc160 || label == r.rfc23)

/-- Argument type of `Role.get` / the `their_role` constructor argument:
`Union[str, ConnRecord.Role]`. -/
inductive RoleArg where
  | str (s : String)
  | role (r : Role)
deriving DecidableEq

/-- `ConnRecord.Role.get`: get role enum for label (string searches both label
sets; a variant is returned unchanged). -/
def Role.get : RoleArg → Option Role
  | .str s => Role.getStr s
  | .role r => some r

/-- `ConnRecord.Role.flip`: return interlocutor role. -/
def Role.flip : Role → Role
  | .RESPONDER => .REQUESTER
  | .REQUESTER => .RESPONDER

/-- `ConnRecord.State`: collator for equivalent states between RFC 160 and RFC 23. -/
inductive State where
  | INIT
  | INVITATION
  | REQUEST
  | RESPONSE
  | COMPLETED
  | ABANDONED
deriving DecidableEq

/-- The label pair carried by each `State` variant (`State.value` in the source). -/
def State.value : State → String × String
  | .INIT => ("init", "start")
  | .INVITATION => ("invitation", "invitation")
  | .REQUEST => ("request", "request")
  | .RESPONSE => ("response", "response")
  | .COMPLETED => ("active", "completed")
  | .ABANDONED => ("error", "abandoned")

/-- RFC 160 (connection protocol) nomenclature: `value[0]`. -/
def State.rfc160 (s : State) : String := s.value.1

/-- RFC 23 (DID exchange protocol) nomenclature: `value[1]`. -/
def State.rfc23 (s : State) : String := s.value.2

/-- Enumeration order of `ConnRecord.State`, as iterated by `State.get`. -/
def State.all : List State :=
  [.INIT, .INVITATION, .REQUEST, .RESPONSE, .COMPLETED, .ABANDONED]

/-- The string arm of `State.get`: first variant whose label pair contains the label. -/
def State.getStr (label : String) : Option State :=
  State.all.find? (fun s => label == s.rfc160 || label == s.rfc23)

/-- Argument type of `State.get` / the `state` constructor argument:
`Union[str, ConnRecord.State]`. -/
inductive StateArg where
  | str (s : String)
  | state (s : State)
deriving DecidableEq

/-- `ConnRecord.State.get`: get state enum for label. -/
def State.get : StateArg → Option State
  | .str s => State.getStr s
  | .state s => some s

/-- `ConnRecord.RECORD_TYPE_INVITATION`. -/
def RECORD_TYPE_INVITATION : String := "connection_invitation"

/-- `ConnRecord.RECORD_TYPE_REQUEST`. -/
def RECORD_TYPE_REQUEST : String := "connection_request"

/-- `ConnRecord.RECORD_TYPE_METADATA`. -/
def RECORD_TYPE_METADATA : String := "connection_metadata"

/-- `ConnRecord.ROUTING_STATE_NONE`. -/
def ROUTING_STATE_NONE : String := "none"

/-- `ConnRecord.ACCEPT_MANUAL`. -/
def ACCEPT_MANUAL : String := "manual"

/-- `ConnRecord.INVITATION_MODE_ONCE`. -/
def INVITATION_MODE_ONCE : String := "once"

/-- `ConnRecord.INVITATION_MODE_MULTI`. -/
def INVITATION_MODE_MULTI : String := "multi"

/-- Python `x or default` over an optional string: `None` and the empty string
are falsy and yield the default. -/
def pyOr (x : Option String) (d : String) : String :=
  match x with
  | some s => if s.isEmpty then d else s
  | none => d

/-- The `ConnRecord` entity: the fields assigned by `ConnRecord.__init__`
(states and roles already normalized to strings, as stored). -/
structure ConnRecord where
  connection_id : Option String
  my_did : Option String
  their_did : Option String
  their_label : Option String
  their_role : Option String
  invitation_key : Option String
  request_id : Option String
  state : String
  inbound_connection_id : Option String
  error_msg : Option String
  routing_state : String
  accept : String
  invitation_mode : String
  alias_ : Option String
deriving DecidableEq

/-- Keyword arguments of `ConnRecord.__init__` (all optional, default `None`). -/
structure ConnRecordArgs where
  connection_id : Option String := none
  my_did : Option String := none
  their_did : Option String := none
  their_label : Option String := none
  their_role : Option RoleArg := none
  invitation_key : Option String := none
  request_id : Option String := none
  state : Option StateArg := none
  inbound_connection_id : Option String := none
  error_msg : Option String := none
  routing_state : Option String := none
  accept : Option String := none
  invitation_mode : Option String := none
  alias_ : Option String := none

/-- The `their_role` normalization in `ConnRecord.__init__`:
`Role.get(their_role).rfc160` when given a string (an `AttributeError` when
the lookup yields `None`), `None` when absent, `their_role.rfc160` when given
a variant. -/
def normalizeTheirRole : Option RoleArg → Except PyErr (Option String)
  | some (.str s) =>
    match Role.getStr s with
    | some r => .ok (some r.rfc160)
    | none => .error .attributeError
  | none => .ok none
  | some (.role r) => .ok (some r.rfc160)

/-- `ConnRecord.__init__`: normalizes `state` via
`(State.get(state) or State.INIT).rfc160`, normalizes `their_role`, and
defaults `routing_state`, `accept`, `invitation_mode`. -/
def ConnRecord.init (a : ConnRecordArgs) : Except PyErr ConnRecord :=
  (normalizeTheirRole a.their_role).map fun tr =>
    { connection_id := a.connection_id
      my_did := a.my_did
      their_did := a.their_did
      their_label := a.their_label
      their_role := tr
      invitation_key := a.invitation_key
      request_id := a.request_id
      state := ((a.state.bind State.get).getD State.INIT).rfc160
      inbound_connection_id := a.inbound_connection_id
      error_msg := a.error_msg
      routing_state := pyOr a.routing_state ROUTING_STATE_NONE
      accept := pyOr a.accept ACCEPT_MANUAL
      invitation_mode := pyOr a.invitation_mode INVITATION_MODE_ONCE
      alias_ := a.alias_ }

/-- `assert self.connection_id`: the identifier is present and truthy. -/
def ConnRecord.hasId (c : ConnRecord) : Bool :=
  match c.connection_id with
  | some s => !s.isEmpty
  | none => false

/-- The connection identifier as used for tags (defined when `hasId`). -/
def ConnRecord.cid (c : ConnRecord) : String :=
  c.connection_id.getD ""

/-- `ConnRecord.is_ready`: `State.get(self.state) in (COMPLETED, RESPONSE)`. -/
def ConnRecord.is_ready (c : ConnRecord) : Bool :=
  match State.getStr c.state with
  | some .COMPLETED => true
  | some .RESPONSE => true
  | _ => false

/-- `ConnRecord.is_multiuse_invitation`: `invitation_mode == "multi"`. -/
def ConnRecord.is_multiuse_invitation (c : ConnRecord) : Bool :=
  c.invitation_mode == INVITATION_MODE_MULTI

/-- Serialized wire form of a message: its `@type` discriminator plus the
remaining fields (result of `json.loads` on the stored value). -/
structure Ser where
  typ : String
  fields : List (String × String)
deriving DecidableEq

/-- Stored value: a plain string (metadata) or a serialized document
(`to_json` output, read back by `json.loads`). -/
inductive Val where
  | str (s : String)
  | doc (d : Ser)
deriving DecidableEq

/-- Modelled from the spec: storage records are
`(kind: string, value: opaque-bytes, tags: mapping(string to string))`. -/
structure StorageRecord where
  type : String
  value : Val
  tags : List (String × String)
deriving DecidableEq

/-- A storage record matches a find query when its kind equals the requested
kind and every tag-filter entry is present among its tags. -/
def recMatches (typ : String) (tagFilter : List (String × String)) (r : StorageRecord) : Bool :=
  r.type == typ && tagFilter.all (fun kv => r.tags.lookup kv.1 == some kv.2)

/-- Modelled from the spec: the storage collaborator state, the records it
holds (`add_record` appends). -/
abbrev Storage := List StorageRecord

/-- Modelled from the spec: `addRecord(kind, value, tags)` persists a record. -/
def add_record (st : Storage) (r : StorageRecord) : Storage :=
  st ++ [r]

/-- Modelled from the spec: `findRecord(kind, tagFilter) -> record | NotFound`
(the record matching the kind and tag filter, a NotFound failure when none
exists). -/
def find_record (st : Storage) (typ : String) (tagFilter : List (String × String)) :
    Except PyErr StorageRecord :=
  match st.filter (recMatches typ tagFilter) with
  | [] => .error .storageNotFound
  | r :: _ => .ok r

/-- Modelled from the spec: `updateRecord(record, value, tags)` updates the
existing record (the stored record equal to the one handed back by find)
in place; NotFound when the record is no longer stored. -/
def update_record (st : Storage) (rec : StorageRecord) (value : Val)
    (tags : List (String × String)) : Except PyErr Storage :=
  match st with
  | [] => .error .storageNotFound
  | r :: rest =>
    if r == rec then .ok ({ rec with value := value, tags := tags } :: rest)
    else (update_record rest rec value tags).map (r :: ·)

/-- Modelled from the spec: canonical legacy connection-protocol invitation
type string (`CONNECTION_INVITATION` from the protocol message-types module,
not part of the source file). -/
def CONNECTION_INVITATION : String := "connections/1.0/invitation"

/-- Modelled from the spec: canonical legacy connection-protocol request type
string (`CONNECTION_REQUEST` from the protocol message-types module). -/
def CONNECTION_REQUEST : String := "connections/1.0/request"

/-- Modelled from the spec: canonical out-of-band invitation type string. -/
def OOB_INVITATION_TYPE : String := "out-of-band/1.0/invitation"

/-- Modelled from the spec: canonical DID-exchange request type string. -/
def DIDX_REQUEST_TYPE : String := "didexchange/1.0/request"

/-- Modelled from the spec: the qualifiers a possibly-prefixed type URI may
carry (the DIDComm prefix enumeration, not part of the source file). -/
def didcommQualifiers : List String :=
  ["did:sov:BzCbsNYhMrjHiqZDTUASHg;spec/", "https://didcomm.org/"]

/-- Modelled from the spec: `DIDCommPrefix.unqualify` maps a possibly-prefixed
type URI to its bare canonical form by stripping a known protocol-prefix
qualifier when one is present. -/
def DIDCommPrefix_unqualify (s : String) : String :=
  match didcommQualifiers.find? (fun q => q.data.isPrefixOf s.data) with
  | some q => ⟨s.data.drop q.data.length⟩
  | none => s

/-- An invitation document: the legacy `ConnectionInvitation` shape or the
out-of-band `InvitationMessage` shape, each carried by its serialized form
(the wire-message classes are external collaborators; per the spec only the
discriminator field and the serialize/deserialize contract matter here). -/
inductive InvitationDoc where
  | connInv (s : Ser)
  | oobInv (s : Ser)
deriving DecidableEq

/-- `to_json` of an invitation document: its serialized form. -/
def InvitationDoc.to_json : InvitationDoc → Ser
  | .connInv s => s
  | .oobInv s => s

/-- Modelled from the spec: `ConnectionInvitation.deserialize` inverts the
legacy variant's serialization. -/
def ConnectionInvitation.deserialize (s : Ser) : InvitationDoc :=
  .connInv s

/-- Modelled from the spec: `InvitationMessage.deserialize` (out-of-band)
inverts the out-of-band variant's serialization. -/
def OOBInvitation.deserialize (s : Ser) : InvitationDoc :=
  .oobInv s

/-- A request document: the legacy `ConnectionRequest` shape or the
DID-exchange `DIDXRequest` shape, carried by its serialized form. -/
inductive RequestDoc where
  | connReq (s : Ser)
  | didxReq (s : Ser)
deriving DecidableEq

/-- `to_json` of a request document: its serialized form. -/
def RequestDoc.to_json : RequestDoc → Ser
  | .connReq s => s
  | .didxReq s => s

/-- Modelled from the spec: `ConnectionRequest.deserialize` inverts the legacy
variant's serialization. -/
def ConnectionRequest.deserialize (s : Ser) : RequestDoc :=
  .connReq s

/-- Modelled from the spec: `DIDXRequest.deserialize` inverts the DID-exchange
variant's serialization. -/
def DIDXRequest.deserialize (s : Ser) : RequestDoc :=
  .didxReq s

/-- `ConnRecord.attach_invitation`: assert the identifier, persist the
serialized invitation as a `connection_invitation` record tagged by
`connection_id`. -/
def ConnRecord.attach_invitation (c : ConnRecord) (st : Storage)
    (invitation : InvitationDoc) : Except PyErr Storage :=
  if c.hasId then
    .ok (add_record st
      ⟨RECORD_TYPE_INVITATION, .doc invitation.to_json, [("connection_id", c.cid)]⟩)
  else .error .assertionError

/-- `ConnRecord.retrieve_invitation`: assert the identifier, find the unique
`connection_invitation` record for this connection, `json.loads` its value and
dispatch on the prefix-stripped `@type`: the legacy deserializer when it
equals `CONNECTION_INVITATION`, the out-of-band deserializer otherwise. -/
def ConnRecord.retrieve_invitation (c : ConnRecord) (st : Storage) :
    Except PyErr InvitationDoc :=
  if c.hasId then
    match find_record st RECORD_TYPE_INVITATION [("connection_id", c.cid)] with
    | .error e => .error e
    | .ok result =>
      match result.value with
      | .str _ => .error .typeError
      | .doc ser =>
        if DIDCommPrefix_unqualify ser.typ == CONNECTION_INVITATION then
          .ok (ConnectionInvitation.deserialize ser)
        else
          .ok (OOBInvitation.deserialize ser)
  else .error .assertionError

/-- `ConnRecord.attach_request`: assert the identifier, persist the serialized
request as a `connection_request` record tagged by `connection_id`. -/
def ConnRecord.attach_request (c : ConnRecord) (st : Storage)
    (request : RequestDoc) : Except PyErr Storage :=
  if c.hasId then
    .ok (add_record st
      ⟨RECORD_TYPE_REQUEST, .doc request.to_json, [("connection_id", c.cid)]⟩)
  else .error .assertionError

/-- `ConnRecord.retrieve_request`: assert the identifier, find the unique
`connection_request` record for this connection and dispatch on the
prefix-stripped `@type`: the legacy deserializer when it equals
`CONNECTION_REQUEST`, the DID-exchange deserializer otherwise. -/
def ConnRecord.retrieve_request (c : ConnRecord) (st : Storage) :
    Except PyErr RequestDoc :=
  if c.hasId then
    match find_record st RECORD_TYPE_REQUEST [("connection_id", c.cid)] with
    | .error e => .error e
    | .ok result =>
      match result.value with
      | .str _ => .error .typeError
      | .doc ser =>
        if DIDCommPrefix_unqualify ser.typ == CONNECTION_REQUEST then
          .ok (ConnectionRequest.deserialize ser)
        else
          .ok (DIDXRequest.deserialize ser)
  else .error .assertionError

/-- The tag mapping of a metadata record: `{"key": key, "connection_id": id}`. -/
def mdTags (key cid : String) : List (String × String) :=
  [("key", key), ("connection_id", cid)]

/-- `ConnRecord.metadata_get`: the stored record's value when a record tagged
`{key, connection_id}` exists, the caller-supplied default otherwise (the
storage NotFound condition is swallowed and replaced by the default). -/
def ConnRecord.metadata_get (c : ConnRecord) (st : Storage) (key : String)
    (default : Option Val) : Except PyErr (Option Val) :=
  if c.hasId then
    match find_record st RECORD_TYPE_METADATA (mdTags key c.cid) with
    | .ok record => .ok (some record.value)
    | .error .storageNotFound => .ok default
    | .error e => .error e
  else .error .assertionError

/-- `ConnRecord.metadata_set`: upsert — look up the record tagged
`{key, connection_id}`; when found, update its value in place (preserving its
tags); when the lookup raises NotFound, create a new tagged record. -/
def ConnRecord.metadata_set (c : ConnRecord) (st : Storage) (key value : String) :
    Except PyErr Storage :=
  if c.hasId then
    match find_record st RECORD_TYPE_METADATA (mdTags key c.cid) with
    | .ok record => update_record st record (.str value) record.tags
    | .error .storageNotFound =>
      .ok (add_record st ⟨RECORD_TYPE_METADATA, .str value, mdTags key c.cid⟩)
    | .error e => .error e
  else .error .assertionError

/-- Tag-indexed value of a `ConnRecord` (the fields in `TAG_NAMES`, the only
fields the storage collaborator indexes). -/
def ConnRecord.tagValue (c : ConnRecord) : String → Option String
  | "my_did" => c.my_did
  | "their_did" => c.their_did
  | "request_id" => c.request_id
  | "invitation_key" => c.invitation_key
  | _ => none

/-- Value properties of a `ConnRecord` (the `record_value` projection, matched
in memory by the post filter). -/
def ConnRecord.valueProp (c : ConnRecord) : String → Option String
  | "their_role" => c.their_role
  | "inbound_connection_id" => c.inbound_connection_id
  | "routing_state" => some c.routing_state
  | "accept" => some c.accept
  | "invitation_mode" => some c.invitation_mode
  | "alias" => c.alias_
  | "error_msg" => c.error_msg
  | "their_label" => c.their_label
  | "state" => some c.state
  | _ => none

/-- A stored connection entity satisfies a tag filter and an in-memory post
filter. -/
def connMatches (tagFilter postFilter : List (String × String)) (c : ConnRecord) : Bool :=
  tagFilter.all (fun kv => c.tagValue kv.1 == some kv.2) &&
  postFilter.all (fun kv => c.valueProp kv.1 == some kv.2)

/-- Modelled from the spec: the generic base-record retrieval
`retrieveByTagFilter(session, tagFilter, postFilter) -> entity`, which fails
on zero (NotFound) or multiple (ambiguous result) matches. -/
def retrieve_by_tag_filter (conns : List ConnRecord)
    (tagFilter postFilter : List (String × String)) : Except PyErr ConnRecord :=
  match conns.filter (connMatches tagFilter postFilter) with
  | [] => .error .storageNotFound
  | [c] => .ok c
  | _ :: _ :: _ => .error .storageDuplicate

/-- The optional role post filter used by `retrieve_by_did` and
`retrieve_by_invitation_key`: `Role.get(their_role).rfc160` when a truthy
role string is supplied (an `AttributeError` when the lookup yields `None`),
nothing otherwise. -/
def rolePostFilter (their_role : Option String) :
    Except PyErr (List (String × String)) :=
  match their_role with
  | some s =>
    if s.isEmpty then .ok []
    else
      match Role.getStr s with
      | some r => .ok [("their_role", r.rfc160)]
      | none => .error .attributeError
  | none => .ok []

/-- `ConnRecord.retrieve_by_did`: tag filter from whichever of
`{their_did, my_did}` are supplied; optional role post filter. -/
def ConnRecord.retrieve_by_did (conns : List ConnRecord)
    (their_did my_did their_role : Option String) : Except PyErr ConnRecord :=
  let tagFilter :=
    (match their_did with
     | some d => if d.isEmpty then [] else [("their_did", d)]
     | none => []) ++
    (match my_did with
     | some d => if d.isEmpty then [] else [("my_did", d)]
     | none => [])
  match rolePostFilter their_role with
  | .ok postFilter => retrieve_by_tag_filter conns tagFilter postFilter
  | .error e => .error e

/-- `ConnRecord.retrieve_by_invitation_key`: tag filter `{invitation_key}`;
mandatory post filter `state == State.INVITATION.rfc160`; optional role post
filter. -/
def ConnRecord.retrieve_by_invitation_key (conns : List ConnRecord)
    (invitation_key : String) (their_role : Option String) : Except PyErr ConnRecord :=
  match rolePostFilter their_role with
  | .ok extra =>
    retrieve_by_tag_filter conns [("invitation_key", invitation_key)]
      ([("state", State.INVITATION.rfc160)] ++ extra)
  | .error e => .error e

/-- `ConnRecord.retrieve_by_request_id`: tag filter `{request_id}` only,
no post filter. -/
def ConnRecord.retrieve_by_request_id (conns : List ConnRecord)
    (request_id : String) : Except PyErr ConnRecord :=
  retrieve_by_tag_filter conns [("request_id", request_id)] []

deriving instance DecidableEq for Except

/-- A document's discriminator names its own variant: the legacy shape carries
the canonical connection-invitation type, the out-of-band shape the
out-of-band type (possibly prefix-qualified). -/
def invDiscOk : InvitationDoc → Bool
  | .connInv s => DIDCommPrefix_unqualify s.typ == CONNECTION_INVITATION
  | .oobInv s => DIDCommPrefix_unqualify s.typ == OOB_INVITATION_TYPE

/-- A concrete connection entity with an assigned identifier, for witnesses. -/
def sampleConn : ConnRecord :=
  { connection_id := some "conn-1"
    my_did := none
    their_did := none
    their_label := none
    their_role := none
    invitation_key := none
    request_id := none
    state := "init"
    inbound_connection_id := none
    error_msg := none
    routing_state := "none"
    accept := "manual"
    invitation_mode := "once"
    alias_ := none }

/-- A concrete stored connection in invitation state, for witnesses. -/
def sampleInvConn : ConnRecord :=
  { sampleConn with
    connection_id := some "conn-2"
    invitation_key := some "K1"
    request_id := some "R1"
    state := "invitation" }

/-- A concrete legacy connection invitation, for witnesses. -/
def sampleLegacyInv : InvitationDoc :=
  .connInv ⟨"did:sov:BzCbsNYhMrjHiqZDTUASHg;spec/connections/1.0/invitation",
    [("label", "Alice")]⟩

/-- A concrete out-of-band invitation, for witnesses. -/
def sampleOobInv : InvitationDoc :=
  .oobInv ⟨"https://didcomm.org/out-of-band/1.0/invitation", [("label", "Alice")]⟩

/-- A concrete serialized document with a discriminator neither protocol
recognizes, for witnesses. -/
def bogusSer : Ser := ⟨"https://didcomm.org/some-other/9.9/thing", []⟩

/-! ## Helper lemmas -/

/-- A successful label lookup returns a variant one of whose labels is the
looked-up string. -/
theorem State.getStr_label {lbl : String} {s : State} (h : State.getStr lbl = some s) :
    lbl = s.rfc160 ∨ lbl = s.rfc23 := by
  have hp := List.find?_some h
  rcases Bool.or_eq_true _ _ |>.mp hp with h1 | h1
  · exact Or.inl (by simpa using h1)
  · exact Or.inr (by simpa using h1)

/-! ## C2 -/

/-- C2: for every Role variant, `Role.get` on its legacy (RFC 160) and current
(RFC 23) labels returns the variant; likewise for every State variant; a
string that is a label of no variant resolves to `none` (e.g. "bogus") rather
than raising. -/
theorem role_state_label_lookup :
    (∀ r : Role, Role.get (.str r.rfc160) = some r ∧ Role.get (.str r.rfc23) = some r) ∧
    (∀ s : State, State.get (.str s.rfc160) = some s ∧ State.get (.str s.rfc23) = some s) ∧
    (∀ lbl : String, (∀ r : Role, lbl ≠ r.rfc160 ∧ lbl ≠ r.rfc23) →
      Role.get (.str lbl) = none) ∧
    (∀ lbl : String, (∀ s : State, lbl ≠ s.rfc160 ∧ lbl ≠ s.rfc23) →
      State.get (.str lbl) = none) ∧
    Role.get (.str "bogus") = none ∧ State.get (.str "bogus") = none := by
  refine ⟨?_, ?_, ?_, ?_, by decide, by decide⟩
  · intro r; cases r <;> exact ⟨by decide, by decide⟩
  · intro s; cases s <;> exact ⟨by decide, by decide⟩
  · intro lbl h
    simp only [Role.get, Role.getStr]
    rw [List.find?_eq_none]
    intro r _
    have hr := h r
    simp [hr.1, hr.2]
  · intro lbl h
    simp only [State.get, State.getStr]
    rw [List.find?_eq_none]
    intro s _
    have hs := h s
    simp [hs.1, hs.2]

/-- C2 witness: the hypothetical conjuncts applied at the concrete
unrecognized label "bogus". -/
theorem role_state_label_lookup_witness :
    Role.get (.str "bogus") = none ∧ State.get (.str "bogus") = none :=
  ⟨role_state_label_lookup.2.2.1 "bogus" (fun r => by cases r <;> exact ⟨by decide, by decide⟩),
   role_state_label_lookup.2.2.2.1 "bogus" (fun s => by cases s <;> exact ⟨by decide, by decide⟩)⟩

/-! ## C8 -/

/-- C8: `is_ready` holds exactly when the stored state string resolves via
`State.get` to RESPONSE or COMPLETED — equivalently, exactly for the label
strings "response", "active" (legacy label of COMPLETED) and "completed" —
and fails for states resolving to INIT, INVITATION, REQUEST or ABANDONED. -/
theorem is_ready_iff (c : ConnRecord) :
    (c.is_ready = true ↔
      (State.getStr c.state = some State.RESPONSE ∨
       State.getStr c.state = some State.COMPLETED)) ∧
    (c.is_ready = true ↔
      (c.state = "response" ∨ c.state = "active" ∨ c.state = "completed")) := by
  have hmain : c.is_ready = true ↔
      (State.getStr c.state = some State.RESPONSE ∨
       State.getStr c.state = some State.COMPLETED) := by
    unfold ConnRecord.is_ready
    rcases h : State.getStr c.state with _ | s
    · simp [h]
    · cases s <;> simp [h]
  refine ⟨hmain, hmain.trans ?_⟩
  constructor
  · rintro (h | h)
    · rcases State.getStr_label h with h1 | h1 <;> simp [h1, State.rfc160, State.rfc23, State.value]
    · rcases State.getStr_label h with h1 | h1
      · right; left; simpa [State.rfc160, State.value] using h1
      · right; right; simpa [State.rfc23, State.value] using h1
  · rintro (h | h | h) <;> rw [h] <;> decide

/-! ## C3 -/

/-- A successful `their_role` normalization yields either no role or the
legacy label of some Role variant. -/
theorem normalizeTheirRole_ok {x : Option RoleArg} {tr : Option String}
    (h : normalizeTheirRole x = .ok tr) :
    tr = none ∨ ∃ r : Role, tr = some r.rfc160 := by
  match x with
  | none =>
    simp only [normalizeTheirRole] at h
    cases h
    exact Or.inl rfl
  | some (.role r) =>
    simp only [normalizeTheirRole] at h
    cases h
    exact Or.inr ⟨r, rfl⟩
  | some (.str s) =>
    simp only [normalizeTheirRole] at h
    rcases hg : Role.getStr s with _ | r <;> rw [hg] at h
    · cases h
    · cases h
      exact Or.inr ⟨r, rfl⟩

/-- C3: every record the constructor produces stores `state` as the legacy
(RFC 160) label of some State variant and `their_role`, when present, as the
legacy label of some Role variant, whatever form the caller supplied; with no
`state` argument the stored state is the legacy label of INIT. -/
theorem init_stores_legacy_labels (a : ConnRecordArgs) (c : ConnRecord)
    (h : ConnRecord.init a = .ok c) :
    (∃ s : State, c.state = s.rfc160) ∧
    (c.their_role = none ∨ ∃ r : Role, c.their_role = some r.rfc160) ∧
    (a.state = none → c.state = State.INIT.rfc160) := by
  rcases htr : normalizeTheirRole a.their_role with e | tr
  · rw [ConnRecord.init, htr] at h; cases h
  · rw [ConnRecord.init, htr] at h
    simp only [Except.map] at h
    cases h
    refine ⟨⟨(a.state.bind State.get).getD State.INIT, rfl⟩, normalizeTheirRole_ok htr, ?_⟩
    intro hst
    show ((a.state.bind State.get).getD State.INIT).rfc160 = State.INIT.rfc160
    rw [hst]
    rfl

/-- C3 witness: constructing with a current-spec role label and no state
argument yields legacy-label storage. -/
theorem init_stores_legacy_labels_witness :
    (∃ s : State,
      ({ sampleConn with their_role := some "invitee" } : ConnRecord).state = s.rfc160) ∧
    (({ sampleConn with their_role := some "invitee" } : ConnRecord).their_role = none ∨
      ∃ r : Role,
        ({ sampleConn with their_role := some "invitee" } : ConnRecord).their_role =
          some r.rfc160) ∧
    ((({ connection_id := some "conn-1", their_role := some (.str "requester") } :
        ConnRecordArgs)).state = none →
      ({ sampleConn with their_role := some "invitee" } : ConnRecord).state =
        State.INIT.rfc160) :=
  init_stores_legacy_labels
    { connection_id := some "conn-1", their_role := some (.str "requester") }
    { sampleConn with their_role := some "invitee" }
    (by decide)

/-! ## C10 -/

/-- C10: role-label normalization is partial — the constructor,
`retrieve_by_did` and `retrieve_by_invitation_key` raise an AttributeError on
a `their_role` string no Role variant carries, are total when `their_role` is
absent, a variant, or a recognized label, while an unrecognized `state`
string in the constructor falls back to INIT without error. -/
theorem their_role_lookup_partiality :
    (∀ a : ConnRecordArgs, a.their_role = some (.str "bogus") →
      ConnRecord.init a = .error .attributeError) ∧
    (∀ conns td md, ConnRecord.retrieve_by_did conns td md (some "bogus") =
      .error .attributeError) ∧
    (∀ conns key, ConnRecord.retrieve_by_invitation_key conns key (some "bogus") =
      .error .attributeError) ∧
    (∀ a : ConnRecordArgs,
      (a.their_role = none ∨ (∃ r, a.their_role = some (.role r)) ∨
        (∃ s r, a.their_role = some (.str s) ∧ Role.getStr s = some r)) →
      ∃ c, ConnRecord.init a = .ok c) ∧
    (∀ (a : ConnRecordArgs) (s : String), a.state = some (.str s) →
      State.getStr s = none → ∀ c, ConnRecord.init a = .ok c →
      c.state = State.INIT.rfc160) := by
  have hbogus : Role.getStr "bogus" = none := by decide
  have hne : "bogus".isEmpty = false := rfl
  refine ⟨?_, ?_, ?_, ?_, ?_⟩
  · intro a h
    rw [ConnRecord.init, h]
    simp [normalizeTheirRole, hbogus, Except.map]
  · intro conns td md
    simp [ConnRecord.retrieve_by_did, rolePostFilter, hbogus, hne]
  · intro conns key
    simp [ConnRecord.retrieve_by_invitation_key, rolePostFilter, hbogus, hne]
  · intro a h
    rcases h with h | ⟨r, h⟩ | ⟨s, r, h, hg⟩
    · simp [ConnRecord.init, normalizeTheirRole, h, Except.map]
    · simp [ConnRecord.init, normalizeTheirRole, h, Except.map]
    · simp [ConnRecord.init, normalizeTheirRole, h, hg, Except.map]
  · intro a s hst hg c h
    rcases htr : normalizeTheirRole a.their_role with e | tr <;>
      rw [ConnRecord.init, htr] at h
    · cases h
    · simp only [Except.map] at h
      cases h
      show ((a.state.bind State.get).getD State.INIT).rfc160 = State.INIT.rfc160
      rw [hst]
      show ((State.get (.str s)).getD State.INIT).rfc160 = State.INIT.rfc160
      rw [State.get, hg]
      rfl

/-- C10 witness: the partiality and totality conjuncts at concrete inputs. -/
theorem their_role_lookup_partiality_witness :
    ConnRecord.init { their_role := some (.str "bogus") } = .error .attributeError ∧
    ConnRecord.retrieve_by_did [] none none (some "bogus") = .error .attributeError ∧
    ConnRecord.retrieve_by_invitation_key [] "K1" (some "bogus") =
      .error .attributeError ∧
    (∃ c, ConnRecord.init { their_role := some (.str "invitee") } = .ok c) :=
  ⟨their_role_lookup_partiality.1 _ rfl,
   their_role_lookup_partiality.2.1 [] none none,
   their_role_lookup_partiality.2.2.1 [] "K1",
   their_role_lookup_partiality.2.2.2.1 _
     (Or.inr (Or.inr ⟨"invitee", .REQUESTER, rfl, by decide⟩))⟩

/-! ## C4 -/

/-- An entity handed back by the generic retrieval satisfies both filters. -/
theorem retrieve_by_tag_filter_ok_matches {conns : List ConnRecord}
    {tagFilter postFilter : List (String × String)} {c : ConnRecord}
    (h : retrieve_by_tag_filter conns tagFilter postFilter = .ok c) :
    connMatches tagFilter postFilter c = true := by
  unfold retrieve_by_tag_filter at h
  rcases hf : conns.filter (connMatches tagFilter postFilter) with _ | ⟨a, _ | ⟨b, l⟩⟩ <;>
    rw [hf] at h
  · cases h
  · injection h with h1
    subst h1
    have ha : a ∈ conns.filter (connMatches tagFilter postFilter) := by
      rw [hf]
      exact List.mem_singleton_self _
    exact (List.mem_filter.mp ha).2
  · cases h

/-- C4: each retrieval operation returns the unique matching entity, fails
with NotFound on zero matches and with an ambiguous-result failure on more
than one; `retrieve_by_request_id` filters on the `request_id` tag alone with
no post filter and surfaces both failures unresolved. -/
theorem retrieval_exactly_one_or_fail (conns : List ConnRecord) (rid : String) :
    (∀ tagFilter postFilter : List (String × String),
      (conns.filter (connMatches tagFilter postFilter) = [] →
        retrieve_by_tag_filter conns tagFilter postFilter = .error .storageNotFound) ∧
      (∀ c, conns.filter (connMatches tagFilter postFilter) = [c] →
        retrieve_by_tag_filter conns tagFilter postFilter = .ok c) ∧
      (∀ c1 c2 l, conns.filter (connMatches tagFilter postFilter) = c1 :: c2 :: l →
        retrieve_by_tag_filter conns tagFilter postFilter = .error .storageDuplicate)) ∧
    ConnRecord.retrieve_by_request_id conns rid =
      retrieve_by_tag_filter conns [("request_id", rid)] [] ∧
    (conns.filter (connMatches [("request_id", rid)] []) = [] →
      ConnRecord.retrieve_by_request_id conns rid = .error .storageNotFound) ∧
    (∀ c1 c2 l, conns.filter (connMatches [("request_id", rid)] []) = c1 :: c2 :: l →
      ConnRecord.retrieve_by_request_id conns rid = .error .storageDuplicate) := by
  have htri : ∀ tagFilter postFilter : List (String × String),
      (conns.filter (connMatches tagFilter postFilter) = [] →
        retrieve_by_tag_filter conns tagFilter postFilter = .error .storageNotFound) ∧
      (∀ c, conns.filter (connMatches tagFilter postFilter) = [c] →
        retrieve_by_tag_filter conns tagFilter postFilter = .ok c) ∧
      (∀ c1 c2 l, conns.filter (connMatches tagFilter postFilter) = c1 :: c2 :: l →
        retrieve_by_tag_filter conns tagFilter postFilter = .error .storageDuplicate) := by
    intro tagFilter postFilter
    refine ⟨fun h => ?_, fun c h => ?_, fun c1 c2 l h => ?_⟩ <;>
      simp [retrieve_by_tag_filter, h]
  refine ⟨htri, rfl, fun h => ?_, fun c1 c2 l h => ?_⟩
  · exact (htri [("request_id", rid)] []).1 h
  · exact (htri [("request_id", rid)] []).2.2 c1 c2 l h

/-- C4 witness: zero matches yield NotFound, two matching records (test
double) yield the ambiguous-result failure. -/
theorem retrieval_exactly_one_or_fail_witness :
    ConnRecord.retrieve_by_request_id [] "R1" = .error .storageNotFound ∧
    ConnRecord.retrieve_by_request_id [sampleInvConn, sampleInvConn] "R1" =
      .error .storageDuplicate :=
  ⟨(retrieval_exactly_one_or_fail [] "R1").2.2.1 rfl,
   (retrieval_exactly_one_or_fail [sampleInvConn, sampleInvConn] "R1").2.2.2
     sampleInvConn sampleInvConn [] (by decide)⟩

/-! ## C7 -/

/-- C7: `retrieve_by_invitation_key` always uses the tag filter
`{invitation_key}` and the mandatory post filter
`state == State.INVITATION.rfc160`, adds `their_role` (as its legacy label)
when a role is supplied, and any entity it returns is in invitation state
with the given invitation key. -/
theorem retrieve_by_invitation_key_filters (conns : List ConnRecord) (key : String) :
    (ConnRecord.retrieve_by_invitation_key conns key none =
      retrieve_by_tag_filter conns [("invitation_key", key)]
        [("state", State.INVITATION.rfc160)]) ∧
    (∀ s r, Role.getStr s = some r → s.isEmpty = false →
      ConnRecord.retrieve_by_invitation_key conns key (some s) =
        retrieve_by_tag_filter conns [("invitation_key", key)]
          [("state", State.INVITATION.rfc160), ("their_role", r.rfc160)]) ∧
    (∀ tr c, ConnRecord.retrieve_by_invitation_key conns key tr = .ok c →
      c.state = State.INVITATION.rfc160) ∧
    (∀ tr c, ConnRecord.retrieve_by_invitation_key conns key tr = .ok c →
      c.invitation_key = some key) := by
  have hok : ∀ tr c, ConnRecord.retrieve_by_invitation_key conns key tr = .ok c →
      connMatches [("invitation_key", key)] [("state", State.INVITATION.rfc160)] c = true ∨
      ∃ extra, connMatches [("invitation_key", key)]
        (("state", State.INVITATION.rfc160) :: extra) c = true := by
    intro tr c h
    unfold ConnRecord.retrieve_by_invitation_key at h
    rcases hr : rolePostFilter tr with e | extra <;> rw [hr] at h
    · cases h
    · exact Or.inr ⟨extra, retrieve_by_tag_filter_ok_matches h⟩
  refine ⟨?_, ?_, ?_, ?_⟩
  · simp [ConnRecord.retrieve_by_invitation_key, rolePostFilter]
  · intro s r hg hne
    simp [ConnRecord.retrieve_by_invitation_key, rolePostFilter, hg, hne]
  · intro tr c h
    rcases hok tr c h with hm | ⟨extra, hm⟩
    · have := (Bool.and_eq_true _ _ |>.mp hm).2
      simp only [List.all_cons, List.all_nil, Bool.and_true, beq_iff_eq,
        ConnRecord.valueProp] at this
      exact Option.some.inj this
    · have := (Bool.and_eq_true _ _ |>.mp hm).2
      rw [List.all_cons, Bool.and_eq_true] at this
      have h1 := this.1
      simp only [beq_iff_eq, ConnRecord.valueProp] at h1
      exact Option.some.inj h1
  · intro tr c h
    rcases hok tr c h with hm | ⟨extra, hm⟩ <;>
    · have := (Bool.and_eq_true _ _ |>.mp hm).1
      simp only [List.all_cons, List.all_nil, Bool.and_true, beq_iff_eq,
        ConnRecord.tagValue] at this
      exact this

/-- C7 witness: a stored record in invitation state is returned and a stored
record in another state never is. -/
theorem retrieve_by_invitation_key_filters_witness :
    ({ sampleConn with invitation_key := some "K1", state := "active" } : ConnRecord) ∈
      ([{ sampleConn with invitation_key := some "K1", state := "active" },
        sampleInvConn] : List ConnRecord) ∧
    sampleInvConn.state = State.INVITATION.rfc160 ∧
    sampleInvConn.invitation_key = some "K1" :=
  ⟨List.mem_cons_self _ _,
   (retrieve_by_invitation_key_filters
      [{ sampleConn with invitation_key := some "K1", state := "active" },
       sampleInvConn] "K1").2.2.1 none sampleInvConn (by decide),
   (retrieve_by_invitation_key_filters
      [{ sampleConn with invitation_key := some "K1", state := "active" },
       sampleInvConn] "K1").2.2.2 none sampleInvConn (by decide)⟩

/-! ## Storage lemmas -/

/-- No matching record: find reports NotFound. -/
theorem find_record_of_filter_nil {st : Storage} {typ : String}
    {f : List (String × String)} (h : st.filter (recMatches typ f) = []) :
    find_record st typ f = .error .storageNotFound := by
  simp [find_record, h]

/-- A matching record: find returns the first one. -/
theorem find_record_of_filter_cons {st : Storage} {typ : String}
    {f : List (String × String)} {r : StorageRecord} {rest : List StorageRecord}
    (h : st.filter (recMatches typ f) = r :: rest) :
    find_record st typ f = .ok r := by
  simp [find_record, h]

/-- Updating the unique record matching a value-independent predicate
succeeds, swaps exactly that record's value in place and leaves every
record's kind and tags (hence the store's length) unchanged. -/
theorem update_record_unique_match (p : StorageRecord → Bool)
    (hp : ∀ (x : StorageRecord) (v : Val), p { x with value := v } = p x) :
    ∀ (st : Storage) (r : StorageRecord) (v : Val),
    st.filter p = [r] →
    ∃ st2, update_record st r v r.tags = .ok st2 ∧
      st2.filter p = [{ r with value := v }] ∧
      st2.map (fun x => (x.type, x.tags)) = st.map (fun x => (x.type, x.tags)) := by
  intro st
  induction st with
  | nil =>
    intro r v h
    simp at h
  | cons a rest ih =>
    intro r v h
    by_cases ha : p a
    · rw [List.filter_cons_of_pos ha] at h
      injection h with h1 h2
      subst h1
      refine ⟨{ a with value := v } :: rest, ?_, ?_, ?_⟩
      · show update_record (a :: rest) a v a.tags = _
        unfold update_record
        simp
      · rw [List.filter_cons_of_pos (by rw [hp a v]; exact ha), h2]
      · simp
    · rw [List.filter_cons_of_neg ha] at h
      have hne : a ≠ r := by
        intro hra
        have hr : r ∈ rest.filter p := by rw [h]; exact List.mem_singleton_self _
        exact ha (hra ▸ (List.mem_filter.mp hr).2)
      obtain ⟨st2, hu, hf2, hm2⟩ := ih r v h
      refine ⟨a :: st2, ?_, ?_, ?_⟩
      · show update_record (a :: rest) r v r.tags = _
        unfold update_record
        rw [if_neg (by simpa using hne), hu]
        rfl
      · rw [List.filter_cons_of_neg ha, hf2]
      · simp [hm2]

/-- A fresh metadata record matches its own find query. -/
theorem recMatches_md_self (key cid : String) (v : Val) :
    recMatches RECORD_TYPE_METADATA (mdTags key cid)
      ⟨RECORD_TYPE_METADATA, v, mdTags key cid⟩ = true := by
  simp [recMatches, mdTags, List.lookup]

/-- The metadata find query ignores a record's value. -/
theorem recMatches_value_free (typ : String) (f : List (String × String))
    (x : StorageRecord) (v : Val) :
    recMatches typ f { x with value := v } = recMatches typ f x := rfl

/-! ## C6 -/

/-- C6: with an assigned identifier, `metadata_get` returns the stored
record's value when a record tagged `{key, connection_id}` exists and the
caller-supplied default otherwise; it never fails on a missing key — the
NotFound condition is swallowed, never propagated. -/
theorem metadata_get_default (c : ConnRecord) (st : Storage) (key : String)
    (default : Option Val) (h : c.hasId = true) :
    (st.filter (recMatches RECORD_TYPE_METADATA (mdTags key c.cid)) = [] →
      c.metadata_get st key default = .ok default) ∧
    (∀ r rest, st.filter (recMatches RECORD_TYPE_METADATA (mdTags key c.cid)) = r :: rest →
      c.metadata_get st key default = .ok (some r.value)) ∧
    (∃ v, c.metadata_get st key default = .ok v) := by
  refine ⟨fun hf => ?_, fun r rest hf => ?_, ?_⟩
  · simp [ConnRecord.metadata_get, h, find_record_of_filter_nil hf]
  · simp [ConnRecord.metadata_get, h, find_record_of_filter_cons hf]
  · rcases hf : st.filter (recMatches RECORD_TYPE_METADATA (mdTags key c.cid)) with _ | ⟨r, rest⟩
    · exact ⟨default, by simp [ConnRecord.metadata_get, h, find_record_of_filter_nil hf]⟩
    · exact ⟨some r.value, by simp [ConnRecord.metadata_get, h, find_record_of_filter_cons hf]⟩

/-- C6 witness: a missing key yields the supplied fallback. -/
theorem metadata_get_default_witness :
    sampleConn.metadata_get [] "missing" (some (.str "fallback")) =
      .ok (some (.str "fallback")) :=
  (metadata_get_default sampleConn [] "missing" (some (.str "fallback")) (by decide)).1 rfl

/-! ## C5 -/

/-- C5: `metadata_set` is an upsert — an existing `{key, connection_id}`
record is updated in place (kinds and tags of the store unchanged, nothing
created), a missing one is created; so set v1, set v2, get returns v2 and
exactly one record for the key remains. -/
theorem metadata_set_upsert (c : ConnRecord) (st : Storage) (key v1 v2 : String)
    (h : c.hasId = true)
    (huniq : (st.filter (recMatches RECORD_TYPE_METADATA (mdTags key c.cid))).length ≤ 1) :
    ∃ st1 st2,
      c.metadata_set st key v1 = .ok st1 ∧
      c.metadata_set st1 key v2 = .ok st2 ∧
      c.metadata_get st2 key none = .ok (some (.str v2)) ∧
      (st2.filter (recMatches RECORD_TYPE_METADATA (mdTags key c.cid))).length = 1 ∧
      (st.filter (recMatches RECORD_TYPE_METADATA (mdTags key c.cid)) = [] →
        st2.length = st.length + 1) ∧
      (st.filter (recMatches RECORD_TYPE_METADATA (mdTags key c.cid)) ≠ [] →
        st2.map (fun x => (x.type, x.tags)) = st.map (fun x => (x.type, x.tags))) := by
  have hp := recMatches_value_free RECORD_TYPE_METADATA (mdTags key c.cid)
  rcases hf : st.filter (recMatches RECORD_TYPE_METADATA (mdTags key c.cid)) with _ | ⟨r, rest⟩
  · -- no record for the key yet: the first set creates one
    set rec1 : StorageRecord := ⟨RECORD_TYPE_METADATA, .str v1, mdTags key c.cid⟩ with hrec1
    have hset1 : c.metadata_set st key v1 = .ok (st ++ [rec1]) := by
      simp [ConnRecord.metadata_set, h, find_record_of_filter_nil hf, add_record, hrec1]
    have hf1 : (st ++ [rec1]).filter (recMatches RECORD_TYPE_METADATA (mdTags key c.cid)) =
        [rec1] := by
      rw [List.filter_append, hf]
      have hm : recMatches RECORD_TYPE_METADATA (mdTags key c.cid) rec1 = true :=
        recMatches_md_self key c.cid (.str v1)
      simp [List.filter_cons, hm]
    obtain ⟨st2, hu, hf2, hm2⟩ :=
      update_record_unique_match _ hp (st ++ [rec1]) rec1 (.str v2) hf1
    have hset2 : c.metadata_set (st ++ [rec1]) key v2 = .ok st2 := by
      simp [ConnRecord.metadata_set, h, find_record_of_filter_cons hf1, hu]
    refine ⟨st ++ [rec1], st2, hset1, hset2, ?_, ?_, ?_, ?_⟩
    · simp [ConnRecord.metadata_get, h, find_record_of_filter_cons hf2]
    · rw [hf2]
      rfl
    · intro _
      have := congrArg List.length hm2
      simpa using this
    · intro habs
      exact absurd rfl habs
  · -- a record exists: both sets update it in place
    have hrest : rest = [] := by
      rw [hf] at huniq
      simpa using huniq
    subst hrest
    obtain ⟨st1, hu1, hf1, hm1⟩ :=
      update_record_unique_match _ hp st r (.str v1) hf
    have hset1 : c.metadata_set st key v1 = .ok st1 := by
      simp [ConnRecord.metadata_set, h, find_record_of_filter_cons hf, hu1]
    obtain ⟨st2, hu2, hf2, hm2⟩ :=
      update_record_unique_match _ hp st1 { r with value := .str v1 } (.str v2) hf1
    have hset2 : c.metadata_set st1 key v2 = .ok st2 := by
      simp [ConnRecord.metadata_set, h, find_record_of_filter_cons hf1, hu2]
    refine ⟨st1, st2, hset1, hset2, ?_, ?_, ?_, ?_⟩
    · simp [ConnRecord.metadata_get, h, find_record_of_filter_cons hf2]
    · rw [hf2]
      rfl
    · intro habs
      simp at habs
    · intro _
      rw [hm2, hm1]

/-- C5 witness: the upsert sequence on an empty store at a concrete
connection and key. -/
theorem metadata_set_upsert_witness :
    ∃ st1 st2,
      sampleConn.metadata_set [] "k" "v1" = .ok st1 ∧
      sampleConn.metadata_set st1 "k" "v2" = .ok st2 ∧
      sampleConn.metadata_get st2 "k" none = .ok (some (.str "v2")) ∧
      (st2.filter (recMatches RECORD_TYPE_METADATA (mdTags "k" sampleConn.cid))).length = 1 ∧
      (([] : Storage).filter (recMatches RECORD_TYPE_METADATA (mdTags "k" sampleConn.cid)) =
          [] → st2.length = ([] : Storage).length + 1) ∧
      (([] : Storage).filter (recMatches RECORD_TYPE_METADATA (mdTags "k" sampleConn.cid)) ≠
          [] → st2.map (fun x => (x.type, x.tags)) =
            ([] : Storage).map (fun x => (x.type, x.tags))) :=
  metadata_set_upsert sampleConn [] "k" "v1" "v2" (by decide) (by decide)

/-! ## C1 -/

/-- C1: with an assigned identifier and no previously attached invitation,
`attach_invitation` then `retrieve_invitation` returns the original document
field-for-field, the legacy deserializer selected when the prefix-stripped
discriminator is the connection-invitation type and the out-of-band
deserializer when it is the out-of-band type. -/
theorem attach_retrieve_invitation (c : ConnRecord) (st : Storage)
    (inv : InvitationDoc) (hid : c.hasId = true)
    (hfresh : st.filter (recMatches RECORD_TYPE_INVITATION [("connection_id", c.cid)]) = [])
    (hdisc : invDiscOk inv = true) :
    ∃ st2, c.attach_invitation st inv = .ok st2 ∧
      c.retrieve_invitation st2 = .ok inv ∧
      (∀ s, inv = .connInv s →
        c.retrieve_invitation st2 = .ok (ConnectionInvitation.deserialize s)) ∧
      (∀ s, inv = .oobInv s →
        c.retrieve_invitation st2 = .ok (OOBInvitation.deserialize s)) := by
  have hattach : c.attach_invitation st inv =
      .ok (st ++ [(⟨RECORD_TYPE_INVITATION, .doc inv.to_json,
        [("connection_id", c.cid)]⟩ : StorageRecord)]) := by
    simp [ConnRecord.attach_invitation, hid, add_record]
  have hrecm : recMatches RECORD_TYPE_INVITATION [("connection_id", c.cid)]
      ⟨RECORD_TYPE_INVITATION, .doc inv.to_json, [("connection_id", c.cid)]⟩ = true := by
    simp [recMatches, List.lookup]
  have hf2 : (st ++ [(⟨RECORD_TYPE_INVITATION, .doc inv.to_json,
        [("connection_id", c.cid)]⟩ : StorageRecord)]).filter
      (recMatches RECORD_TYPE_INVITATION [("connection_id", c.cid)]) =
      [(⟨RECORD_TYPE_INVITATION, .doc inv.to_json,
        [("connection_id", c.cid)]⟩ : StorageRecord)] := by
    rw [List.filter_append, hfresh]
    simp [List.filter_cons, hrecm]
  have hfind := find_record_of_filter_cons hf2
  have hret : c.retrieve_invitation (st ++ [(⟨RECORD_TYPE_INVITATION, .doc inv.to_json,
      [("connection_id", c.cid)]⟩ : StorageRecord)]) = .ok inv := by
    rcases inv with s | s
    · have hd : DIDCommPrefix_unqualify s.typ = CONNECTION_INVITATION := by
        simpa [invDiscOk] using hdisc
      simp only [InvitationDoc.to_json] at hfind
      simp [ConnRecord.retrieve_invitation, hid, hfind, InvitationDoc.to_json, hd,
        ConnectionInvitation.deserialize]
    · have hd : DIDCommPrefix_unqualify s.typ = OOB_INVITATION_TYPE := by
        simpa [invDiscOk] using hdisc
      have hne : DIDCommPrefix_unqualify s.typ ≠ CONNECTION_INVITATION := by
        rw [hd]
        decide
      simp only [InvitationDoc.to_json] at hfind
      simp [ConnRecord.retrieve_invitation, hid, hfind, InvitationDoc.to_json, hne,
        OOBInvitation.deserialize]
  refine ⟨_, hattach, hret, ?_, ?_⟩
  · rintro s rfl
    exact hret
  · rintro s rfl
    exact hret

/-- C1 witness: the roundtrip at a concrete connection, once with a
prefix-qualified legacy invitation, once with an out-of-band invitation. -/
theorem attach_retrieve_invitation_witness :
    (∃ st2, sampleConn.attach_invitation [] sampleLegacyInv = .ok st2 ∧
      sampleConn.retrieve_invitation st2 = .ok sampleLegacyInv) ∧
    (∃ st2, sampleConn.attach_invitation [] sampleOobInv = .ok st2 ∧
      sampleConn.retrieve_invitation st2 = .ok sampleOobInv) := by
  obtain ⟨st2, h1, h2, -, -⟩ :=
    attach_retrieve_invitation sampleConn [] sampleLegacyInv (by decide) rfl (by decide)
  obtain ⟨st2o, g1, g2, -, -⟩ :=
    attach_retrieve_invitation sampleConn [] sampleOobInv (by decide) rfl (by decide)
  exact ⟨⟨st2, h1, h2⟩, ⟨st2o, g1, g2⟩⟩

/-! ## C9 -/

/-- C9: the two-way dispatch never rejects a discriminator — any stored
invitation whose prefix-stripped type differs from the connection-invitation
type (recognized by neither protocol included) deserializes through the
out-of-band variant, any stored request whose type differs from the
connection-request type through the DID-exchange variant, and retrieval with
a stored document always succeeds. -/
theorem unrecognized_discriminator_defaults (c : ConnRecord) (st : Storage)
    (hid : c.hasId = true) :
    (∀ rec ser, find_record st RECORD_TYPE_INVITATION [("connection_id", c.cid)] = .ok rec →
      rec.value = .doc ser → DIDCommPrefix_unqualify ser.typ ≠ CONNECTION_INVITATION →
      c.retrieve_invitation st = .ok (OOBInvitation.deserialize ser)) ∧
    (∀ rec ser, find_record st RECORD_TYPE_REQUEST [("connection_id", c.cid)] = .ok rec →
      rec.value = .doc ser → DIDCommPrefix_unqualify ser.typ ≠ CONNECTION_REQUEST →
      c.retrieve_request st = .ok (DIDXRequest.deserialize ser)) ∧
    (∀ rec ser, find_record st RECORD_TYPE_INVITATION [("connection_id", c.cid)] = .ok rec →
      rec.value = .doc ser → ∃ d, c.retrieve_invitation st = .ok d) ∧
    (∀ rec ser, find_record st RECORD_TYPE_REQUEST [("connection_id", c.cid)] = .ok rec →
      rec.value = .doc ser → ∃ d, c.retrieve_request st = .ok d) := by
  refine ⟨?_, ?_, ?_, ?_⟩
  · intro rec ser hfind hval hne
    simp [ConnRecord.retrieve_invitation, hid, hfind, hval, hne]
  · intro rec ser hfind hval hne
    simp [ConnRecord.retrieve_request, hid, hfind, hval, hne]
  · intro rec ser hfind hval
    by_cases hd : DIDCommPrefix_unqualify ser.typ = CONNECTION_INVITATION
    · exact ⟨ConnectionInvitation.deserialize ser,
        by simp [ConnRecord.retrieve_invitation, hid, hfind, hval, hd]⟩
    · exact ⟨OOBInvitation.deserialize ser,
        by simp [ConnRecord.retrieve_invitation, hid, hfind, hval, hd]⟩
  · intro rec ser hfind hval
    by_cases hd : DIDCommPrefix_unqualify ser.typ = CONNECTION_REQUEST
    · exact ⟨ConnectionRequest.deserialize ser,
        by simp [ConnRecord.retrieve_request, hid, hfind, hval, hd]⟩
    · exact ⟨DIDXRequest.deserialize ser,
        by simp [ConnRecord.retrieve_request, hid, hfind, hval, hd]⟩

/-- C9 witness: a stored invitation and request with a discriminator neither
protocol recognizes dispatch to the out-of-band and DID-exchange
deserializers. -/
theorem unrecognized_discriminator_defaults_witness :
    sampleConn.retrieve_invitation
      [⟨RECORD_TYPE_INVITATION, .doc bogusSer, [("connection_id", "conn-1")]⟩,
       ⟨RECORD_TYPE_REQUEST, .doc bogusSer, [("connection_id", "conn-1")]⟩] =
      .ok (OOBInvitation.deserialize bogusSer) ∧
    sampleConn.retrieve_request
      [⟨RECORD_TYPE_INVITATION, .doc bogusSer, [("connection_id", "conn-1")]⟩,
       ⟨RECORD_TYPE_REQUEST, .doc bogusSer, [("connection_id", "conn-1")]⟩] =
      .ok (DIDXRequest.deserialize bogusSer) := by
  have h := unrecognized_discriminator_defaults sampleConn
    [⟨RECORD_TYPE_INVITATION, .doc bogusSer, [("connection_id", "conn-1")]⟩,
     ⟨RECORD_TYPE_REQUEST, .doc bogusSer, [("connection_id", "conn-1")]⟩] (by decide)
  exact ⟨h.1 ⟨RECORD_TYPE_INVITATION, .doc bogusSer, [("connection_id", "conn-1")]⟩ bogusSer
      (by decide) rfl (by decide),
    h.2.1 ⟨RECORD_TYPE_REQUEST, .doc bogusSer, [("connection_id", "conn-1")]⟩ bogusSer
      (by decide) rfl (by decide)⟩
